import Mathlib

set_option maxHeartbeats 1600000

namespace FitsToMp4

/-!
Shallow embedding of src/fits_to_mp4.py.

Conventions used throughout:
* numpy float64 arithmetic in the normalization expression is idealized as
  exact rational arithmetic; the astype(np.uint8) cast truncates toward
  zero, which on the nonnegative values produced by the expression is the
  floor.  Counterexample inputs are chosen so that the exact values are
  dyadic and float64 would compute them exactly.
* a numpy division whose denominator is zero is modeled as the value none:
  numpy emits a runtime warning and produces NaN there, and the uint8 cast
  of NaN is not a defined value.
* frames are integer sample grids (2D: rows of samples; 3D: rows of pixels,
  each pixel a channel list, channels last, i.e. after the transpose on
  source line 69).
* file names and paths are character lists; the temp_frames directory
  component is implicit (every modeled file lives in it).
-/

/-- Dictionary (code point) order on character lists, the order used by the
Python sorted builtin on file name strings. -/
def strLt : List Char → List Char → Bool
  | _, [] => false
  | [], _ :: _ => true
  | a :: as, b :: bs => if a < b then true else if a = b then strLt as bs else false

/-- Decimal digit characters of a natural number, most significant first,
written with explicit fuel so that the kernel can evaluate it.  The fuel
n + 1 always suffices. -/
def toDecimalAux : ℕ → ℕ → List Char
  | 0, _ => []
  | fuel + 1, n =>
    if n < 10 then [Nat.digitChar n]
    else toDecimalAux fuel (n / 10) ++ [Nat.digitChar (n % 10)]

/-- Decimal representation of a natural number as a character list. -/
def toDecimal (n : ℕ) : List Char :=
  toDecimalAux (n + 1) n

/-- The Python format specifier 04d used on source lines 90, 94, 97, 159,
162, 170, 173: the decimal form, left padded with zero characters to a
minimum width of four; numbers with five or more digits keep their full
decimal form. -/
def fmt04 (n : ℕ) : List Char :=
  List.replicate (4 - (toDecimal n).length) '0' ++ toDecimal n

/-- The per-frame artifact file name written by the extraction loop:
frame_ then the 04d formatted sequence index then the extension. -/
def frameName (ext : List Char) (i : ℕ) : List Char :=
  "frame_".toList ++ fmt04 i ++ ext

/-- The artifacts written by the extraction loop of source lines 60 to 97:
enumerate(fits_files) pairs each frame with its position, and one artifact
named by that position is written per frame. -/
def extractArtifacts (n : ℕ) (ext : List Char) : List (ℕ × List Char) :=
  (List.range n).map (fun i => (i, frameName ext i))

/-- Minimum of an integer list (the numpy min reduction); junk value 0 on
the empty list, which numpy rejects and the claims never use. -/
def listMin (l : List ℤ) : ℤ := l.foldl min (l.headD 0)

/-- Maximum of an integer list (the numpy max reduction). -/
def listMax (l : List ℤ) : ℤ := l.foldl max (l.headD 0)

/-- One sample of the normalization expression of source lines 71 and 76:
(v - m) / (M - m) * 255 followed by the uint8 cast.  The cast truncates
toward zero; with m the minimum of the data the operand is nonnegative, so
truncation is the floor. -/
def normPixel (v m M : ℤ) : ℤ :=
  ⌊(((v : ℚ) - (m : ℚ)) / ((M : ℚ) - (m : ℚ))) * 255⌋

/-- Source line 76 (the 2D grayscale branch): normalize with the min and the
max of the whole frame.  The result is none exactly when max = min: the
expression then divides by zero (numpy produces NaN with a warning and the
uint8 cast of NaN is undefined). -/
def normalize2D (g : List (List ℤ)) : Option (List (List ℤ)) :=
  if listMax g.flatten - listMin g.flatten = 0 then none
  else some (g.map (fun row => row.map (fun v =>
    normPixel v (listMin g.flatten) (listMax g.flatten))))

/-- A 3D frame: rows of pixels, each pixel a list of channel samples. -/
abbrev Grid3 := List (List (List ℤ))

/-- All samples of a 3D frame, in row-major order. -/
def vals3 (g : Grid3) : List ℤ := (g.map List.flatten).flatten

/-- Source line 71 (the 3D branch): data.min() and data.max() carry no axis
argument, so ONE min and ONE max are taken over the whole frame, all
channels together, and every sample of every channel is mapped with that
single pair.  none models the division by zero when max = min. -/
def normalize3D (g : Grid3) : Option Grid3 :=
  if listMax (vals3 g) - listMin (vals3 g) = 0 then none
  else some (g.map (fun row => row.map (fun px => px.map (fun v =>
    normPixel v (listMin (vals3 g)) (listMax (vals3 g))))))

/-- Written from the spec words for claim C3: map value v to
round((v - m) / (M - m) * 255) clipped to [0, 255]. -/
def specNormPixel (v m M : ℤ) : ℤ :=
  max 0 (min 255 (round ((((v : ℚ) - (m : ℚ)) / ((M : ℚ) - (m : ℚ))) * 255)))

/-- The samples of channel c of a 3D frame. -/
def channelVals (g : Grid3) (c : ℕ) : List ℤ :=
  g.flatten.map (fun px => px.getD c 0)

/-- Written from the spec words for claim C3: for each channel compute min
and max over that frame and map each value of that channel with its own
min and max; a constant channel maps to zeros. -/
def specNormalize3D (g : Grid3) : Grid3 :=
  g.map (fun row => row.map (fun px =>
    px.enum.map (fun q =>
      if listMax (channelVals g q.1) = listMin (channelVals g q.1) then 0
      else specNormPixel q.2 (listMin (channelVals g q.1)) (listMax (channelVals g q.1)))))

/-- Sample lookup in a 3D frame: row i, column j, channel c. -/
def gridGet3 (g : Grid3) (i j c : ℕ) : Option ℤ :=
  (g[i]?.bind (fun row => row[j]?)).bind (fun px => px[c]?)

/-- Pixel lookup in a 3D frame: row i, column j. -/
def pixGet (g : Grid3) (i j : ℕ) : Option (List ℤ) :=
  g[i]?.bind (fun row => row[j]?)

/-- Width of a frame as the source reads it: rgb.shape[1], the length of the
first row (numpy arrays are rectangular). -/
def frameWidth (g : Grid3) : ℕ := (g.headD []).length

/-- Channel count of a frame: rgb.shape[2]. -/
def frameChans (g : Grid3) : ℕ := ((g.headD []).headD []).length

/-- Source lines 81 and 82: when the height is odd, np.pad appends one row
of zeros (one zero pixel per column). -/
def padRows (g : Grid3) : Grid3 :=
  if g.length % 2 ≠ 0 then
    g ++ [List.replicate (frameWidth g) (List.replicate (frameChans g) (0 : ℤ))]
  else g

/-- Source lines 79 to 84: capture height and width, pad one zero row when
the height is odd, then pad one zero pixel onto every row when the
captured width is odd. -/
def padFrame (g : Grid3) : Grid3 :=
  if frameWidth g % 2 ≠ 0 then
    (padRows g).map (fun row => row ++ [List.replicate (frameChans g) (0 : ℤ)])
  else padRows g

/-- The character list of the literal .fits extension. -/
def fitsExt : List Char := ".fits".toList

/-- Language of the source regex of line 37, escape(pfx) then .* then one or
more digits then the literal .fits, anchored at both ends: a name matches
exactly when it decomposes as the literal pfx, then any characters, then a
nonempty digit run, then .fits.  The Unicode digit class of the Python
regex is restricted to the ASCII digits that Char.isDigit tests. -/
def pfxRegexMatch (pfx name : List Char) : Prop :=
  ∃ mid ds, name = pfx ++ mid ++ ds ++ fitsExt ∧ ds ≠ [] ∧ ∀ c ∈ ds, c.isDigit = true

/-- Executable decider for the same regex: the name starts with pfx, what
remains ends with .fits, and the character right before that extension is a
digit (a nonempty digit run can always be shrunk to its last digit, the
rest absorbed by the .* part). -/
def pfxRegexAccept (pfx name : List Char) : Bool :=
  pfx.isPrefixOf name &&
    (let rest := name.drop pfx.length
     fitsExt.isSuffixOf rest &&
       match (rest.take (rest.length - 5)).getLast? with
       | some c => c.isDigit
       | none => false)

/-- Written from the spec words for claim C7: only file names that are
pfx then digits then .fits, nothing between the pfx and the digit run. -/
def specPfxAccepts (pfx name : List Char) : Prop :=
  ∃ ds, ds ≠ [] ∧ (∀ c ∈ ds, c.isDigit = true) ∧ name = pfx ++ ds ++ fitsExt

/-- Amended filter language for claim C7: pfx, then arbitrary characters,
then at least one digit immediately before the .fits extension. -/
def amendedPfxAccepts (pfx name : List Char) : Prop :=
  ∃ mid d, d.isDigit = true ∧ name = pfx ++ mid ++ [d] ++ fitsExt

/-- The glob *.fits of source line 46 (no filtering beyond the extension). -/
def fitsGlobMatch (name : List Char) : Bool := fitsExt.isSuffixOf name

/-- Source lines 27 to 46: with a prefix argument, keep the files the regex
accepts; without one, keep every .fits file.  The sorted() call permutes
the list and is irrelevant to the claims settled on this model, which only
inspect membership and emptiness. -/
def collectFits (usePfx : Bool) (pfx : List Char) (listing : List (List Char)) :
    List (List Char) :=
  if usePfx then listing.filter (fun f => pfxRegexAccept pfx f)
  else listing.filter fitsGlobMatch

/-- Outcomes of the external process runs, abstracted to exit codes: the
environment fixes the exit code of the primary encode attempt and of the
fallback attempt. -/
structure ProcEnv where
  primaryExit : ℕ
  fallbackExit : ℕ
  deriving DecidableEq

/-- Result of the encode phase: ok, or a CalledProcessError escaping the
script, carrying the encoder of the failed command and its exit code. -/
inductive EncodeResult where
  | ok : EncodeResult
  | err : String → ℕ → EncodeResult
  deriving DecidableEq

/-- The try/except block of source lines 243 to 274.  The primary command is
run with check=True; on a nonzero exit, a non libx264 encoder gets exactly
one fallback run built around libx264 (again check=True, so its own
CalledProcessError escapes verbatim), while a libx264 primary re-raises the
original error.  The second component records the encoders attempted, in
order. -/
def runEncode (encoder : String) (env : ProcEnv) : EncodeResult × List String :=
  if env.primaryExit = 0 then (EncodeResult.ok, [encoder])
  else if encoder ≠ "libx264" then
    (if env.fallbackExit = 0 then (EncodeResult.ok, [encoder, "libx264"])
     else (EncodeResult.err "libx264" env.fallbackExit, [encoder, "libx264"]))
  else (EncodeResult.err encoder env.primaryExit, [encoder])

/-- Intermediate artifact format selected on the command line; bmp and png
via the flags, raw the default. -/
inductive Fmt where
  | bmp
  | png
  | raw
  deriving DecidableEq

/-- A file in the temp_frames staging directory, split as stem and
extension so that the glob patterns of the cleanup block are expressible. -/
structure TmpFile where
  stem : List Char
  ext : List Char
  deriving DecidableEq

/-- Extension of the per-frame artifact written by the extraction loop
(source lines 87 to 97). -/
def artifactExt : Fmt → List Char
  | Fmt.bmp => ".bmp".toList
  | Fmt.png => ".png".toList
  | Fmt.raw => ".npy".toList

/-- Extension glob stored in the file_extension variable and removed by the
cleanup block (source lines 160, 163, 182, 213, 277). -/
def cleanupPatExt : Fmt → List Char
  | Fmt.bmp => ".bmp".toList
  | Fmt.png => ".png".toList
  | Fmt.raw => ".npy".toList

/-- The raw_frames.rgb temporary of source line 193. -/
def rawStreamFile : TmpFile := ⟨"raw_frames".toList, ".rgb".toList⟩

/-- The n per-frame artifacts written by the extraction loop. -/
def artifactFiles (fmt : Fmt) (n : ℕ) : List TmpFile :=
  (List.range n).map (fun i => ⟨"frame_".toList ++ fmt04 i, artifactExt fmt⟩)

/-- The BMP temporaries written for VAAPI in raw mode (source lines 169 to
173). -/
def vaapiBmpFiles (n : ℕ) : List TmpFile :=
  (List.range n).map (fun i => ⟨"frame_".toList ++ fmt04 i, ".bmp".toList⟩)

/-- Every file the job writes into temp_frames before the encode attempt:
the per-frame artifacts, plus the VAAPI BMP conversions in raw mode with
the VAAPI encoder, plus the raw stream temporary in raw mode with any
other encoder. -/
def createdFiles (fmt : Fmt) (encoder : String) (n : ℕ) : List TmpFile :=
  artifactFiles fmt n ++
    (if fmt = Fmt.raw ∧ encoder = "h264_vaapi" then vaapiBmpFiles n else []) ++
    (if fmt = Fmt.raw ∧ encoder ≠ "h264_vaapi" then [rawStreamFile] else [])

/-- The cleanup block of source lines 276 to 291: remove the files matching
the file_extension glob; then, when not in bmp mode and the encoder is
VAAPI, remove the *.bmp files; then, when in raw mode with a non VAAPI
encoder, remove raw_frames.rgb when present. -/
def cleanupFiles (fmt : Fmt) (encoder : String) (files : List TmpFile) : List TmpFile :=
  let f1 := files.filter (fun f => decide (f.ext ≠ cleanupPatExt fmt))
  let f2 := if fmt ≠ Fmt.bmp ∧ encoder = "h264_vaapi"
    then f1.filter (fun f => decide (f.ext ≠ ".bmp".toList)) else f1
  if fmt = Fmt.raw ∧ encoder ≠ "h264_vaapi"
    then f2.filter (fun f => decide (f ≠ rawStreamFile)) else f2

/-- Observable outcome of one whole job run, for the encode and cleanup
tail of the script. -/
structure JobResult where
  result : EncodeResult
  attempts : List String
  remaining : List TmpFile
  dirRemoved : Bool
  deriving DecidableEq

/-- The encode plus cleanup tail of the script (source lines 243 to 293).
The cleanup block and the final os.rmdir sit AFTER the try/except block
with no finally: they execute only when no process error escaped; a
propagating CalledProcessError terminates the script with every created
file still on disk and the staging directory still present.  os.rmdir
succeeds exactly when the directory has been emptied. -/
def runJob (fmt : Fmt) (encoder : String) (n : ℕ) (env : ProcEnv) : JobResult :=
  match runEncode encoder env with
  | (EncodeResult.ok, att) =>
      ⟨EncodeResult.ok, att,
        cleanupFiles fmt encoder (createdFiles fmt encoder n),
        (cleanupFiles fmt encoder (createdFiles fmt encoder n)).isEmpty⟩
  | (EncodeResult.err e c, att) =>
      ⟨EncodeResult.err e c, att, createdFiles fmt encoder n, false⟩

/-- Outcome classification for the full control flow skeleton, including
the two early terminations that precede any encode attempt. -/
inductive FullOutcome where
  | noInputExit
  | indexError
  | encodeOk
  | encodeErr (e : String) (code : ℕ)
  deriving DecidableEq

/-- Observables of the full run: final outcome, number of per-frame
artifacts written, encoders attempted, and whether the staging directory
was created. -/
structure FullResult where
  outcome : FullOutcome
  artifactsWritten : ℕ
  attempts : List String
  dirCreated : Bool
  deriving DecidableEq

/-- Control flow skeleton of the whole script.  The temp_frames directory
is created unconditionally on line 24, BEFORE file collection.  Only the
prefix branch checks for an empty collection (sys.exit(1) on line 44); the
no-prefix branch proceeds with an empty list, and in raw mode with a non
VAAPI encoder then crashes with an IndexError at the unguarded
raw_frames[0] of line 199, after writing the raw stream temporary but
before any encode attempt.  Otherwise the encode phase runs. -/
def runJobFull (usePfx : Bool) (pfx : List Char) (listing : List (List Char))
    (fmt : Fmt) (encoder : String) (env : ProcEnv) : FullResult :=
  if usePfx ∧ (collectFits usePfx pfx listing).length = 0 then
    ⟨FullOutcome.noInputExit, 0, [], true⟩
  else if fmt = Fmt.raw ∧ encoder ≠ "h264_vaapi" ∧
      (collectFits usePfx pfx listing).length = 0 then
    ⟨FullOutcome.indexError, 0, [], true⟩
  else
    match runEncode encoder env with
    | (EncodeResult.ok, att) =>
        ⟨FullOutcome.encodeOk, (collectFits usePfx pfx listing).length, att, true⟩
    | (EncodeResult.err e c, att) =>
        ⟨FullOutcome.encodeErr e c, (collectFits usePfx pfx listing).length, att, true⟩

/-- Environment of encoder selection: the output of the compiled encoder
query (none models a subprocess failure or timeout of the query itself,
source lines 123 to 130), and a smoke test oracle per encoder name. -/
structure EncEnv where
  available : Option (List String)
  smokeOk : String → Bool

/-- The fixed preference ordered candidate list of source lines 115 to 120. -/
def encodersToTry : List (String × String) :=
  [("h264_vaapi", "VAAPI (GPU)"), ("h264_amf", "AMD AMF"),
   ("h264_nvenc", "NVIDIA NVENC"), ("h264_videotoolbox", "macOS VideoToolbox")]

/-- The candidate loop of source lines 139 to 149: smoke test each candidate
present in the compiled list, select the first that passes, fall back to
libx264 when none does.  The second component records the candidates that
were smoke tested, in order. -/
def selectLoop (env : EncEnv) (avail : List String) :
    List (String × String) → (String × String) × List String
  | [] => (("libx264", "CPU (software)"), [])
  | (e, d) :: rest =>
    if e ∈ avail then
      (if env.smokeOk e then ((e, d), [e])
       else ((selectLoop env avail rest).1, e :: (selectLoop env avail rest).2))
    else selectLoop env avail rest

/-- check_gpu_encoders of source lines 113 to 149: a failed query of the
compiled encoder list returns libx264 at once; with test_encoders false the
function returns libx264 before any smoke test; otherwise the candidate
loop runs. -/
def checkGpuEncoders (testEncoders : Bool) (env : EncEnv) :
    (String × String) × List String :=
  match env.available with
  | none => (("libx264", "CPU (software)"), [])
  | some avail =>
    if testEncoders then selectLoop env avail encodersToTry
    else (("libx264", "CPU (software)"), [])

/-- A frame loaded back from its .npy artifact for the raw pipeline: its
two leading shape entries and its tobytes() payload. -/
structure RawFrame where
  h : ℕ
  w : ℕ
  bytes : List ℕ
  deriving DecidableEq

/-- The ffmpeg argument list built for raw stream input on source lines 202
to 211: the size flag carries only the given width and height, and the rate
control arguments depend on whether the encoder is libx264. -/
def rawCmd (encoder : String) (w h : ℕ) : List String :=
  ["ffmpeg", "-y", "-f", "rawvideo", "-vcodec", "rawvideo",
   "-s", Nat.repr w ++ "x" ++ Nat.repr h, "-pix_fmt", "rgb24",
   "-r", "60", "-i", "raw_frames.rgb"] ++
  (if encoder = "libx264" then ["-c:v", encoder, "-pix_fmt", "yuv420p", "-crf", "23", "animation.mp4"]
   else ["-c:v", encoder, "-pix_fmt", "yuv420p", "-b:v", "8M", "animation.mp4"])

/-- The raw stream pipeline construction of source lines 185 to 213: every
frame contributes its bytes to the concatenated stream with no dimension
check of any kind, the size flag is taken from raw_frames[0] alone, and
that index is unguarded, so the empty frame list yields none (IndexError). -/
def buildRawPipeline (encoder : String) (frames : List RawFrame) :
    Option (List String × List ℕ) :=
  match frames with
  | [] => none
  | f0 :: rest =>
      some (rawCmd encoder f0.w f0.h, ((f0 :: rest).map RawFrame.bytes).flatten)

/-- The four digit characters of a number below 10000, most significant
first: the shape the 04d format takes on that range. -/
def fourDigits (n : ℕ) : List Char :=
  [Nat.digitChar (n / 1000 % 10), Nat.digitChar (n / 100 % 10),
   Nat.digitChar (n / 10 % 10), Nat.digitChar (n % 10)]

/-! ## Theorems -/

/-- Claim C2 counterexample: on the constant 2 by 2 frame of value 5 the
normalization expression of source line 76 IS evaluated with the zero
denominator max - min (modeled as the none result), refuting the claim that
no division by zero is performed and that a flat all zero channel is
produced by a guard. -/
theorem c2_counterexample : normalize2D [[5, 5], [5, 5]] = none := by decide

/-- Claim C2 (amended): every source frame whose minimum equals its
maximum — 2D frames through the line 76 branch and 3D frames through the
line 71 branch alike — drives the unguarded normalization expression into
a division by zero, modeled as the none result; no guarded all zero
channel is produced. -/
theorem c2_amended (g2 : List (List ℤ)) (g3 : Grid3) :
    (listMin g2.flatten = listMax g2.flatten → normalize2D g2 = none) ∧
    (listMin (vals3 g3) = listMax (vals3 g3) → normalize3D g3 = none) := by
  constructor
  · intro h
    unfold normalize2D
    rw [← h, sub_self]
    simp
  · intro h
    unfold normalize3D
    rw [← h, sub_self]
    simp

/-- Witness for c2_amended at the concrete constant frames [[7, 7]] (2D)
and [[[5, 5, 5]]] (3D). -/
theorem c2_amended_witness :
    normalize2D [[7, 7]] = none ∧ normalize3D [[[5, 5, 5]]] = none :=
  ⟨(c2_amended [[7, 7]] [[[5, 5, 5]]]).1 (by decide),
   (c2_amended [[7, 7]] [[[5, 5, 5]]]).2 (by decide)⟩

/-- Bridge between the rational floor expression of normPixel and integer
floor division, for a nonconstant frame: this is the exact value the
idealized source expression takes. -/
theorem normPixel_eq_ediv (v m M : ℤ) (h : m < M) :
    normPixel v m M = (v - m) * 255 / (M - m) := by
  unfold normPixel
  have hd : ((M - m).toNat : ℤ) = M - m := Int.toNat_of_nonneg (by omega)
  have hcast : (((M - m).toNat : ℕ) : ℚ) = (M : ℚ) - m := by exact_mod_cast hd
  rw [show ((v : ℚ) - m) / ((M : ℚ) - m) * 255 =
      (((v - m) * 255 : ℤ) : ℚ) / (((M - m).toNat : ℕ) : ℚ) from by
    rw [hcast]; push_cast; ring]
  rw [Rat.floor_intCast_div_natCast, hd]

/-- Evaluation of the source 3D normalization on the concrete frame used to
settle claim C3: global min 0, global max 40, truncating division. -/
theorem norm3D_cex_eval :
    normalize3D [[[0, 0, 0], [10, 20, 40]]] = some [[[0, 0, 0], [63, 127, 255]]] := by
  have h1 : listMin (vals3 [[[0, 0, 0], [10, 20, 40]]]) = 0 := by decide
  have h2 : listMax (vals3 [[[0, 0, 0], [10, 20, 40]]]) = 40 := by decide
  unfold normalize3D
  rw [h1, h2, if_neg (by decide : ¬((40 : ℤ) - 0 = 0))]
  simp only [List.map, Option.some.injEq]
  simp only [normPixel_eq_ediv 0 0 40 (by norm_num), normPixel_eq_ediv 10 0 40 (by norm_num),
    normPixel_eq_ediv 20 0 40 (by norm_num), normPixel_eq_ediv 40 0 40 (by norm_num)]
  decide

/-- Evaluation of the spec per-channel normalization on the same concrete
frame: each channel maximum maps to 255. -/
theorem spec3D_cex_eval :
    specNormalize3D [[[0, 0, 0], [10, 20, 40]]] = [[[0, 0, 0], [255, 255, 255]]] := by
  have c0n : listMin (channelVals [[[0, 0, 0], [10, 20, 40]]] 0) = 0 := by decide
  have c0x : listMax (channelVals [[[0, 0, 0], [10, 20, 40]]] 0) = 10 := by decide
  have c1n : listMin (channelVals [[[0, 0, 0], [10, 20, 40]]] 1) = 0 := by decide
  have c1x : listMax (channelVals [[[0, 0, 0], [10, 20, 40]]] 1) = 20 := by decide
  have c2n : listMin (channelVals [[[0, 0, 0], [10, 20, 40]]] 2) = 0 := by decide
  have c2x : listMax (channelVals [[[0, 0, 0], [10, 20, 40]]] 2) = 40 := by decide
  unfold specNormalize3D
  simp only [List.map, List.enum, List.enumFrom]
  simp only [c0n, c0x, c1n, c1x, c2n, c2x]
  norm_num [specNormPixel]

/-- Claim C3 counterexample: on the 1 by 2 pixel frame with channels-last
data [[[0,0,0],[10,20,40]]] the source normalization (single min 0 and max
40 over the whole frame, uint8 truncation) yields [[[0,0,0],[63,127,255]]],
while the claimed per-channel mapping with rounding yields
[[[0,0,0],[255,255,255]]]; the claim is false on the code. -/
theorem c3_counterexample :
    normalize3D [[[0, 0, 0], [10, 20, 40]]] = some [[[0, 0, 0], [63, 127, 255]]] ∧
    specNormalize3D [[[0, 0, 0], [10, 20, 40]]] = [[[0, 0, 0], [255, 255, 255]]] :=
  ⟨norm3D_cex_eval, spec3D_cex_eval⟩

/-- Claim C3 (amended): the 3D branch normalizes every sample of every
channel with the SINGLE min and max taken over the whole frame: whenever
normalization succeeds, the output sample at row i, column j, channel c is
the global floor formula applied to the input sample there. -/
theorem c3_amended (g : Grid3) (out : Grid3) (h : normalize3D g = some out)
    (i j c : ℕ) (v : ℤ) (hv : gridGet3 g i j c = some v) :
    gridGet3 out i j c = some (normPixel v (listMin (vals3 g)) (listMax (vals3 g))) := by
  unfold normalize3D at h
  by_cases hz : listMax (vals3 g) - listMin (vals3 g) = 0
  · rw [if_pos hz] at h
    exact absurd h (by simp)
  · rw [if_neg hz] at h
    have hout := Option.some.inj h
    subst hout
    unfold gridGet3 at hv ⊢
    cases hgi : g[i]? with
    | none => simp [hgi] at hv
    | some row =>
      simp only [hgi, Option.some_bind] at hv
      cases hrj : row[j]? with
      | none => simp [hrj] at hv
      | some px =>
        simp only [hrj, Option.some_bind] at hv
        cases hpc : px[c]? with
        | none => simp [hpc] at hv
        | some w =>
          simp only [hpc, Option.some.injEq] at hv
          subst hv
          simp [List.getElem?_map, hgi, hrj, hpc]

/-- Witness for c3_amended at the concrete frame of the counterexample
input, read at row 0, column 1, channel 0. -/
theorem c3_amended_witness :
    gridGet3 [[[0, 0, 0], [63, 127, 255]]] 0 1 0 =
      some (normPixel 10 (listMin (vals3 [[[0, 0, 0], [10, 20, 40]]]))
        (listMax (vals3 [[[0, 0, 0], [10, 20, 40]]]))) :=
  c3_amended [[[0, 0, 0], [10, 20, 40]]] [[[0, 0, 0], [63, 127, 255]]]
    norm3D_cex_eval 0 1 0 10 (by decide)

/-- Claim C5: for every environment — whatever encoder list the external
tool reports, and also when the query itself fails — selection with the
test flag off returns the software encoder libx264 and runs no smoke test
(the tested list is empty). -/
theorem c5_software_default (env : EncEnv) :
    checkGpuEncoders false env = (("libx264", "CPU (software)"), []) := by
  unfold checkGpuEncoders
  cases env.available <;> simp

/-- Claim C10: in raw artifact mode with a non VAAPI encoder, the size flag
of the built command comes solely from the frame at index 0 (the command is
unchanged by every later frame), every frame contributes its bytes to the
concatenated stream with no dimension check, and the index 0 lookup is
unguarded: the empty frame list yields none, the IndexError of source line
199. -/
theorem c10_raw_pipeline (encoder : String) :
    buildRawPipeline encoder [] = none ∧
    (∀ f0 rest rest2,
      (buildRawPipeline encoder (f0 :: rest)).map Prod.fst =
        (buildRawPipeline encoder (f0 :: rest2)).map Prod.fst) ∧
    (∀ f0 rest,
      (buildRawPipeline encoder (f0 :: rest)).map Prod.fst =
        some (rawCmd encoder f0.w f0.h) ∧
      (buildRawPipeline encoder (f0 :: rest)).map Prod.snd =
        some (((f0 :: rest).map RawFrame.bytes).flatten)) := by
  refine ⟨rfl, ?_, ?_⟩ <;> intros <;> simp [buildRawPipeline]

/-- Claim C4: with a non software primary encoder and a nonzero primary
exit, the controller retries exactly once with libx264 and the outcome
follows the retry (ok when it exits zero, its own process error verbatim
otherwise); a libx264 primary failure is fatal at once with the original
error; in every case at most two attempts are made and no encoder is
attempted twice. -/
theorem c4_fallback (encoder : String) (env : ProcEnv) :
    (env.primaryExit ≠ 0 → encoder ≠ "libx264" →
      (runEncode encoder env).2 = [encoder, "libx264"] ∧
      (env.fallbackExit = 0 → (runEncode encoder env).1 = EncodeResult.ok) ∧
      (env.fallbackExit ≠ 0 →
        (runEncode encoder env).1 = EncodeResult.err "libx264" env.fallbackExit)) ∧
    (env.primaryExit ≠ 0 → encoder = "libx264" →
      (runEncode encoder env).1 = EncodeResult.err encoder env.primaryExit ∧
      (runEncode encoder env).2 = [encoder]) ∧
    (runEncode encoder env).2.length ≤ 2 ∧
    (runEncode encoder env).2.Nodup := by
  unfold runEncode
  by_cases h1 : env.primaryExit = 0 <;> by_cases h2 : encoder = "libx264" <;>
    by_cases h3 : env.fallbackExit = 0 <;> simp [h1, h2, h3]

/-- Witness for c4_fallback: primary h264_nvenc exits 1, fallback exits 0 —
exactly one retry with libx264 and a successful outcome. -/
theorem c4_fallback_witness :
    (runEncode "h264_nvenc" ⟨1, 0⟩).2 = ["h264_nvenc", "libx264"] ∧
    (runEncode "h264_nvenc" ⟨1, 0⟩).1 = EncodeResult.ok :=
  ⟨((c4_fallback "h264_nvenc" ⟨1, 0⟩).1 (by decide) (by decide)).1,
   ((c4_fallback "h264_nvenc" ⟨1, 0⟩).1 (by decide) (by decide)).2.1 (by decide)⟩

/-- Claim C7 counterexample: the file name r_abc123.fits is accepted by the
source regex of line 37 (its .* between the escaped prefix and the digit
run admits the letters abc), but it is not of the claimed shape prefix
digits .fits; the if and only if of the claim is false on the code. -/
theorem c7_counterexample :
    pfxRegexMatch "r_".toList "r_abc123.fits".toList ∧
    ¬ specPfxAccepts "r_".toList "r_abc123.fits".toList := by
  constructor
  · exact ⟨"abc".toList, "123".toList, by decide, by decide, by decide⟩
  · rintro ⟨ds, hne, hdig, heq⟩
    have e : ("r_".toList ++ ds) ++ fitsExt =
        ("r_".toList ++ "abc123".toList) ++ fitsExt := by
      conv_lhs => rw [← heq]
      decide
    have e2 : "r_".toList ++ ds = "r_".toList ++ "abc123".toList :=
      (List.append_inj' e rfl).1
    have e3 : ds = "abc123".toList := List.append_cancel_left e2
    exact absurd (hdig 'a' (by rw [e3]; decide)) (by decide)

/-- Claim C7 (amended): the filter accepts a file name exactly when it is
the prefix, then arbitrary characters, then at least one digit immediately
before the .fits extension; characters other than digits between the prefix
and the final digit are allowed. -/
theorem c7_amended (pfx name : List Char) :
    pfxRegexMatch pfx name ↔ amendedPfxAccepts pfx name := by
  constructor
  · rintro ⟨mid, ds, heq, hne, hdig⟩
    obtain ⟨ds0, d, rfl⟩ : ∃ ds0 d, ds = ds0 ++ [d] :=
      ⟨ds.dropLast, ds.getLast hne, (List.dropLast_append_getLast hne).symm⟩
    refine ⟨mid ++ ds0, d, hdig d (by simp), ?_⟩
    rw [heq]
    simp [List.append_assoc]
  · rintro ⟨mid, d, hd, heq⟩
    refine ⟨mid, [d], heq, by simp, ?_⟩
    intro c hc
    rw [List.mem_singleton] at hc
    subst hc
    exact hd

/-- Witness for c7_amended: the name r_x7.fits, with the non digit x
between the prefix and the digit, is in the amended filter language. -/
theorem c7_amended_witness :
    amendedPfxAccepts "r_".toList "r_x7.fits".toList :=
  (c7_amended "r_".toList "r_x7.fits".toList).mp
    ⟨"x".toList, "7".toList, by decide, by decide, by decide⟩

/-- Claim C9: on a rectangular frame, the padding step appends exactly one
zero filled row when the height is odd (new height H + 1), appends exactly
one zero filled pixel to every row when the width is odd (new width W + 1),
leaves a frame with both dimensions even unchanged, and never alters any
existing pixel. -/
theorem c9_padding (g : Grid3) (hrect : ∀ row ∈ g, row.length = frameWidth g) :
    (padFrame g).length = (if g.length % 2 = 1 then g.length + 1 else g.length) ∧
    (∀ row ∈ padFrame g, row.length =
      (if frameWidth g % 2 = 1 then frameWidth g + 1 else frameWidth g)) ∧
    (g.length % 2 = 1 → ∃ z, (padFrame g).getLast? = some z ∧
      ∀ px ∈ z, ∀ u ∈ px, u = (0 : ℤ)) ∧
    (frameWidth g % 2 = 1 → ∀ row ∈ padFrame g, ∃ px, row.getLast? = some px ∧
      ∀ u ∈ px, u = (0 : ℤ)) ∧
    (g.length % 2 = 0 → frameWidth g % 2 = 0 → padFrame g = g) ∧
    (∀ i j, i < g.length → j < frameWidth g → pixGet (padFrame g) i j = pixGet g i j) := by
  by_cases hh : g.length % 2 = 0 <;> by_cases hw : frameWidth g % 2 = 0
  · -- both even: unchanged
    have hr : padRows g = g := by
      unfold padRows
      rw [if_neg (by omega : ¬(g.length % 2 ≠ 0))]
    have hp : padFrame g = g := by
      unfold padFrame
      rw [hr, if_neg (by omega : ¬(frameWidth g % 2 ≠ 0))]
    refine ⟨?_, ?_, ?_, ?_, ?_, ?_⟩
    · rw [hp, if_neg (by omega)]
    · rw [hp, if_neg (by omega)]
      exact hrect
    · intro h1; omega
    · intro h1; omega
    · intro _ _; exact hp
    · intro i j _ _; rw [hp]
  · -- even height, odd width: one zero pixel appended to every row
    have hr : padRows g = g := by
      unfold padRows
      rw [if_neg (by omega : ¬(g.length % 2 ≠ 0))]
    have hp : padFrame g =
        g.map (fun row => row ++ [List.replicate (frameChans g) (0 : ℤ)]) := by
      unfold padFrame
      rw [hr, if_pos (by omega : frameWidth g % 2 ≠ 0)]
    refine ⟨?_, ?_, ?_, ?_, ?_, ?_⟩
    · rw [hp, if_neg (by omega)]
      simp
    · rw [hp, if_pos (by omega)]
      intro row hrow
      rcases List.mem_map.mp hrow with ⟨r, hr0, rfl⟩
      simp [hrect r hr0]
    · intro h1; omega
    · intro _ row hrow
      rw [hp] at hrow
      rcases List.mem_map.mp hrow with ⟨r, _, rfl⟩
      exact ⟨List.replicate (frameChans g) 0, List.getLast?_concat _,
        fun u hu => List.eq_of_mem_replicate hu⟩
    · intro _ h1; omega
    · intro i j hi hj
      rw [hp]
      unfold pixGet
      rw [List.getElem?_map]
      cases hgi : g[i]? with
      | none => simp
      | some row =>
        have hmem : row ∈ g := List.getElem?_mem hgi
        simp only [Option.map_some, Option.some_bind]
        exact List.getElem?_append_left (by rw [hrect row hmem]; exact hj)
  · -- odd height, even width: one zero row appended
    have hp : padFrame g = g ++
        [List.replicate (frameWidth g) (List.replicate (frameChans g) (0 : ℤ))] := by
      unfold padFrame padRows
      rw [if_pos (by omega : g.length % 2 ≠ 0),
        if_neg (by omega : ¬(frameWidth g % 2 ≠ 0))]
    refine ⟨?_, ?_, ?_, ?_, ?_, ?_⟩
    · rw [hp, if_pos (by omega)]
      simp
    · rw [hp, if_neg (by omega)]
      intro row hrow
      rcases List.mem_append.mp hrow with h1 | h1
      · exact hrect row h1
      · rw [List.mem_singleton] at h1
        subst h1
        simp
    · intro _
      rw [hp]
      exact ⟨List.replicate (frameWidth g) (List.replicate (frameChans g) 0),
        List.getLast?_concat _,
        fun px hpx u hu => by
          rw [List.eq_of_mem_replicate hpx] at hu
          exact List.eq_of_mem_replicate hu⟩
    · intro h1; omega
    · intro h1; omega
    · intro i j hi hj
      rw [hp]
      unfold pixGet
      rw [List.getElem?_append_left hi]
  · -- both odd
    have hp : padFrame g =
        (g ++ [List.replicate (frameWidth g) (List.replicate (frameChans g) (0 : ℤ))]).map
          (fun row => row ++ [List.replicate (frameChans g) (0 : ℤ)]) := by
      unfold padFrame padRows
      rw [if_pos (by omega : frameWidth g % 2 ≠ 0),
        if_pos (by omega : g.length % 2 ≠ 0)]
    refine ⟨?_, ?_, ?_, ?_, ?_, ?_⟩
    · rw [hp, if_pos (by omega)]
      simp
    · rw [hp, if_pos (by omega)]
      intro row hrow
      rcases List.mem_map.mp hrow with ⟨r, hr0, rfl⟩
      rcases List.mem_append.mp hr0 with h1 | h1
      · simp [hrect r h1]
      · rw [List.mem_singleton] at h1
        subst h1
        simp
    · intro _
      rw [hp, List.map_append]
      refine ⟨List.replicate (frameWidth g) (List.replicate (frameChans g) 0) ++
        [List.replicate (frameChans g) 0], by simp [List.getLast?_concat], ?_⟩
      intro px hpx u hu
      rcases List.mem_append.mp hpx with h1 | h1
      · rw [List.eq_of_mem_replicate h1] at hu
        exact List.eq_of_mem_replicate hu
      · rw [List.mem_singleton] at h1
        subst h1
        exact List.eq_of_mem_replicate hu
    · intro _ row hrow
      rw [hp] at hrow
      rcases List.mem_map.mp hrow with ⟨r, _, rfl⟩
      exact ⟨List.replicate (frameChans g) 0, List.getLast?_concat _,
        fun u hu => List.eq_of_mem_replicate hu⟩
    · intro h1; omega
    · intro i j hi hj
      rw [hp]
      unfold pixGet
      rw [List.getElem?_map, List.getElem?_append_left hi]
      cases hgi : g[i]? with
      | none => simp
      | some row =>
        have hmem : row ∈ g := List.getElem?_mem hgi
        simp only [Option.map_some, Option.some_bind]
        exact List.getElem?_append_left (by rw [hrect row hmem]; exact hj)

/-- Witness for c9_padding at the concrete 1 by 1 frame [[[1]]], whose
height and width are both odd. -/
theorem c9_padding_witness :
    (padFrame [[[1]]]).length =
      (if ([[[1]]] : Grid3).length % 2 = 1
       then ([[[1]]] : Grid3).length + 1 else ([[[1]]] : Grid3).length) :=
  (c9_padding [[[1]]] (by decide)).1

/-- On the success path the cleanup block removes every file the job wrote,
for every format and encoder combination, leaving the directory empty. -/
theorem cleanup_removes_created (fmt : Fmt) (encoder : String) (n : ℕ) :
    cleanupFiles fmt encoder (createdFiles fmt encoder n) = [] := by
  have hrgb : (decide (rawStreamFile.ext ≠ cleanupPatExt Fmt.raw)) = true := by decide
  have hart : ∀ (fm : Fmt) (a : TmpFile), a ∈ artifactFiles fm n →
      a.ext = cleanupPatExt fm := by
    intro fm a ha
    rcases List.mem_map.mp ha with ⟨i, _, rfl⟩
    cases fm <;> rfl
  have hvb : ∀ a : TmpFile, a ∈ vaapiBmpFiles n → a.ext = ".bmp".toList := by
    intro a ha
    rcases List.mem_map.mp ha with ⟨i, _, rfl⟩
    rfl
  cases fmt <;> by_cases hv : encoder = "h264_vaapi" <;>
    simp [cleanupFiles, createdFiles, hv, List.filter_append, hrgb] <;>
    first
      | exact fun a ha => hart _ a ha
      | exact fun a ha _ => hart _ a ha
      | exact ⟨fun a ha _ => hart _ a ha, fun a ha hb => (hb (hvb a ha)).elim⟩

/-- Claim C1 counterexample: raw mode, hardware encoder h264_nvenc, one
frame, both encode attempts exit 1 — the fallback exhausted fatal outcome —
yet the per-frame artifact and the raw stream temporary remain on disk and
the staging directory is not removed, refuting the claim that every
intermediate artifact and the directory are removed before the error
surfaces. -/
theorem c1_counterexample :
    (runJob Fmt.raw "h264_nvenc" 1 ⟨1, 1⟩).result = EncodeResult.err "libx264" 1 ∧
    (runJob Fmt.raw "h264_nvenc" 1 ⟨1, 1⟩).remaining ≠ [] ∧
    (runJob Fmt.raw "h264_nvenc" 1 ⟨1, 1⟩).dirRemoved = false := by
  decide

/-- Claim C1 (amended): cleanup is complete exactly on the success
outcomes — after a successful encode (primary, or fallback after a primary
failure) every created file is removed and the staging directory is
removed — while on every fatal process failure (software primary failure,
or fallback exhaustion) nothing is cleaned: every created file remains and
the staging directory persists. -/
theorem c1_amended (fmt : Fmt) (encoder : String) (n : ℕ) (env : ProcEnv) :
    ((runJob fmt encoder n env).result = EncodeResult.ok →
      (runJob fmt encoder n env).remaining = [] ∧
      (runJob fmt encoder n env).dirRemoved = true) ∧
    (∀ e c, (runJob fmt encoder n env).result = EncodeResult.err e c →
      (runJob fmt encoder n env).remaining = createdFiles fmt encoder n ∧
      (runJob fmt encoder n env).dirRemoved = false) := by
  unfold runJob
  cases hre : runEncode encoder env with
  | mk r att =>
    cases r with
    | ok => simp [cleanup_removes_created]
    | err e c => simp

/-- Witness for c1_amended: raw mode with h264_nvenc whose primary attempt
fails and whose fallback succeeds — full cleanup. -/
theorem c1_amended_witness :
    (runJob Fmt.raw "h264_nvenc" 1 ⟨1, 0⟩).remaining = [] ∧
    (runJob Fmt.raw "h264_nvenc" 1 ⟨1, 0⟩).dirRemoved = true :=
  (c1_amended Fmt.raw "h264_nvenc" 1 ⟨1, 0⟩).1 (by decide)

/-- Claim C6 counterexample: with no prefix filter, an empty source
directory, bmp mode and the software encoder, the job does NOT stop with a
no input error: it runs an encode attempt (which fails) and ends with a
process error, refuting the claim that zero matching frames always yield a
fatal no input error before any encode attempt. -/
theorem c6_counterexample :
    (runJobFull false [] [] Fmt.bmp "libx264" ⟨1, 1⟩).outcome =
      FullOutcome.encodeErr "libx264" 1 ∧
    (runJobFull false [] [] Fmt.bmp "libx264" ⟨1, 1⟩).attempts = ["libx264"] := by
  decide

/-- Claim C6 (amended): the zero input check exists only on the prefix
path: with a prefix filter and zero matches the job exits fatally before
writing any per-frame artifact and before any encode attempt (the staging
directory has already been created); without a prefix filter there is no
such check and the job never reports a no input outcome. -/
theorem c6_amended (pfx : List Char) (listing : List (List Char)) (fmt : Fmt)
    (encoder : String) (env : ProcEnv) :
    ((collectFits true pfx listing).length = 0 →
      runJobFull true pfx listing fmt encoder env =
        ⟨FullOutcome.noInputExit, 0, [], true⟩) ∧
    ((runJobFull false pfx listing fmt encoder env).outcome ≠ FullOutcome.noInputExit) := by
  constructor
  · intro h
    unfold runJobFull
    rw [if_pos ⟨rfl, h⟩]
  · unfold runJobFull
    rw [if_neg (by simp)]
    split
    · simp
    · split <;> simp

/-- Witness for c6_amended: prefix r_ over an empty directory listing. -/
theorem c6_amended_witness :
    runJobFull true "r_".toList [] Fmt.raw "libx264" ⟨1, 1⟩ =
      ⟨FullOutcome.noInputExit, 0, [], true⟩ :=
  (c6_amended "r_".toList [] Fmt.raw "libx264" ⟨1, 1⟩).1 (by decide)

/-- The decimal digit function does not depend on its fuel, as long as the
fuel exceeds the number. -/
theorem toDecimalAux_congr (n : ℕ) : ∀ f g, n < f → n < g →
    toDecimalAux f n = toDecimalAux g n := by
  induction n using Nat.strong_induction_on with
  | _ n ih =>
    intro f g hf hg
    cases f with
    | zero => omega
    | succ f =>
      cases g with
      | zero => omega
      | succ g =>
        by_cases h10 : n < 10
        · simp [toDecimalAux, h10]
        · simp only [toDecimalAux, h10, if_false]
          rw [ih (n / 10) (by omega) f g (by omega) (by omega)]

/-- One digit numbers print as their digit character. -/
theorem toDecimal_small (n : ℕ) (h : n < 10) : toDecimal n = [Nat.digitChar n] := by
  simp [toDecimal, toDecimalAux, h]

/-- The recursion step of decimal printing. -/
theorem toDecimal_step (n : ℕ) (h : 10 ≤ n) :
    toDecimal n = toDecimal (n / 10) ++ [Nat.digitChar (n % 10)] := by
  have h10 : ¬ n < 10 := by omega
  show toDecimalAux (n + 1) n = toDecimal (n / 10) ++ [Nat.digitChar (n % 10)]
  simp only [toDecimalAux, h10, if_false]
  rw [toDecimalAux_congr (n / 10) n (n / 10 + 1) (by omega) (by omega)]
  rfl

/-- Two digit numbers print as two digit characters. -/
theorem toDecimal_digits2 (n : ℕ) (h1 : 10 ≤ n) (h2 : n < 100) :
    toDecimal n = [Nat.digitChar (n / 10), Nat.digitChar (n % 10)] := by
  rw [toDecimal_step n h1, toDecimal_small (n / 10) (by omega)]
  rfl

/-- Three digit numbers print as three digit characters. -/
theorem toDecimal_digits3 (n : ℕ) (h1 : 100 ≤ n) (h2 : n < 1000) :
    toDecimal n = [Nat.digitChar (n / 100), Nat.digitChar (n / 10 % 10),
      Nat.digitChar (n % 10)] := by
  rw [toDecimal_step n (by omega), toDecimal_digits2 (n / 10) (by omega) (by omega),
    show n / 10 / 10 = n / 100 by omega]
  rfl

/-- Four digit numbers print as four digit characters. -/
theorem toDecimal_digits4 (n : ℕ) (h1 : 1000 ≤ n) (h2 : n < 10000) :
    toDecimal n = [Nat.digitChar (n / 1000), Nat.digitChar (n / 100 % 10),
      Nat.digitChar (n / 10 % 10), Nat.digitChar (n % 10)] := by
  rw [toDecimal_step n (by omega), toDecimal_digits3 (n / 10) (by omega) (by omega),
    show n / 10 / 100 = n / 1000 by omega, show n / 10 / 10 % 10 = n / 100 % 10 by omega]
  rfl

/-- Below 10000 the 04d format is exactly the four digit decomposition. -/
theorem fmt04_eq_fourDigits (n : ℕ) (h : n < 10000) : fmt04 n = fourDigits n := by
  have hc0 : Nat.digitChar 0 = '0' := rfl
  rcases Nat.lt_or_ge n 10 with h1 | h1
  · rw [fmt04, toDecimal_small n h1, fourDigits,
      show n / 1000 % 10 = 0 by omega, show n / 100 % 10 = 0 by omega,
      show n / 10 % 10 = 0 by omega, show n % 10 = n by omega, hc0]
    rfl
  rcases Nat.lt_or_ge n 100 with h2 | h2
  · rw [fmt04, toDecimal_digits2 n h1 h2, fourDigits,
      show n / 1000 % 10 = 0 by omega, show n / 100 % 10 = 0 by omega,
      show n / 10 % 10 = n / 10 by omega, hc0]
    rfl
  rcases Nat.lt_or_ge n 1000 with h3 | h3
  · rw [fmt04, toDecimal_digits3 n h2 h3, fourDigits,
      show n / 1000 % 10 = 0 by omega, show n / 100 % 10 = n / 100 by omega, hc0]
    rfl
  · rw [fmt04, toDecimal_digits4 n h3 h, fourDigits,
      show n / 1000 % 10 = n / 1000 by omega]
    rfl

/-- Digit characters compare exactly as their digits. -/
theorem digitChar_lt_iff : ∀ a < 10, ∀ b < 10,
    ((Nat.digitChar a < Nat.digitChar b) ↔ a < b) := by decide

/-- Digit characters are equal exactly when their digits are. -/
theorem digitChar_inj : ∀ a < 10, ∀ b < 10,
    ((Nat.digitChar a = Nat.digitChar b) ↔ a = b) := by decide

/-- On four digit strings the dictionary order agrees with the numeric
order of the four digit numbers they spell. -/
theorem strLt_digits4 (x3 x2 x1 x0 y3 y2 y1 y0 : ℕ)
    (hx3 : x3 < 10) (hx2 : x2 < 10) (hx1 : x1 < 10) (hx0 : x0 < 10)
    (hy3 : y3 < 10) (hy2 : y2 < 10) (hy1 : y1 < 10) (hy0 : y0 < 10)
    (hlt : x3 * 1000 + x2 * 100 + x1 * 10 + x0 < y3 * 1000 + y2 * 100 + y1 * 10 + y0) :
    strLt [Nat.digitChar x3, Nat.digitChar x2, Nat.digitChar x1, Nat.digitChar x0]
      [Nat.digitChar y3, Nat.digitChar y2, Nat.digitChar y1, Nat.digitChar y0] = true := by
  have hirr : ∀ c : Char, ¬ c < c := fun c => lt_irrefl c
  simp only [strLt]
  by_cases h3 : x3 < y3
  · rw [if_pos ((digitChar_lt_iff x3 hx3 y3 hy3).mpr h3)]
  · have e3 : x3 = y3 := by omega
    subst e3
    rw [if_neg (hirr _), if_pos rfl]
    by_cases h2 : x2 < y2
    · rw [if_pos ((digitChar_lt_iff x2 hx2 y2 hy2).mpr h2)]
    · have e2 : x2 = y2 := by omega
      subst e2
      rw [if_neg (hirr _), if_pos rfl]
      by_cases h1 : x1 < y1
      · rw [if_pos ((digitChar_lt_iff x1 hx1 y1 hy1).mpr h1)]
      · have e1 : x1 = y1 := by omega
        subst e1
        rw [if_neg (hirr _), if_pos rfl,
          if_pos ((digitChar_lt_iff x0 hx0 y0 hy0).mpr (by omega))]

/-- The four digit keys are ordered like their numbers. -/
theorem strLt_fourDigits (i j : ℕ) (hi : i < 10000) (hj : j < 10000) (hij : i < j) :
    strLt (fourDigits i) (fourDigits j) = true := by
  unfold fourDigits
  apply strLt_digits4 <;> omega

/-- The four digit key determines the number below 10000. -/
theorem fourDigits_inj (i j : ℕ) (hi : i < 10000) (hj : j < 10000)
    (h : fourDigits i = fourDigits j) : i = j := by
  unfold fourDigits at h
  simp only [List.cons.injEq, and_true] at h
  obtain ⟨h3, h2, h1, h0⟩ := h
  have e3 := (digitChar_inj _ (by omega) _ (by omega)).mp h3
  have e2 := (digitChar_inj _ (by omega) _ (by omega)).mp h2
  have e1 := (digitChar_inj _ (by omega) _ (by omega)).mp h1
  have e0 := (digitChar_inj _ (by omega) _ (by omega)).mp h0
  omega

/-- A common prefix never decides the dictionary order. -/
theorem strLt_append_same (p a b : List Char) :
    strLt (p ++ a) (p ++ b) = strLt a b := by
  induction p with
  | nil => rfl
  | cons c cs ih =>
    show (if c < c then true else if c = c then strLt (cs ++ a) (cs ++ b) else false) =
      strLt a b
    rw [if_neg (lt_irrefl c), if_pos rfl, ih]

/-- Dictionary order on equal length blocks followed by suffixes: the
blocks decide unless they are equal, in which case the suffixes decide. -/
theorem strLt_append_eqlen (a : List Char) : ∀ (b u v : List Char),
    a.length = b.length →
    strLt (a ++ u) (b ++ v) = if a = b then strLt u v else strLt a b := by
  induction a with
  | nil =>
    intro b u v hb
    cases b with
    | nil => simp
    | cons d ds => simp at hb
  | cons c cs ih =>
    intro b u v hb
    cases b with
    | nil => simp at hb
    | cons d ds =>
      by_cases hcd : c < d
      · have hne : (c :: cs) ≠ (d :: ds) := by
          intro he
          injection he with he1 _
          exact absurd he1 (ne_of_lt hcd)
        rw [if_neg hne]
        show (if c < d then true else if c = d then strLt (cs ++ u) (ds ++ v) else false) =
          (if c < d then true else if c = d then strLt cs ds else false)
        rw [if_pos hcd, if_pos hcd]
      · by_cases hce : c = d
        · subst hce
          by_cases hcs : cs = ds
          · subst hcs
            rw [if_pos rfl]
            show (if c < c then true else
              if c = c then strLt (cs ++ u) (cs ++ v) else false) = strLt u v
            rw [if_neg (lt_irrefl c), if_pos rfl, ih cs u v rfl, if_pos rfl]
          · have hne : (c :: cs) ≠ (c :: ds) := by
              intro he
              injection he with _ he2
              exact hcs he2
            rw [if_neg hne]
            show (if c < c then true else
                if c = c then strLt (cs ++ u) (ds ++ v) else false) =
              (if c < c then true else if c = c then strLt cs ds else false)
            rw [if_neg (lt_irrefl c), if_neg (lt_irrefl c), if_pos rfl, if_pos rfl,
              ih ds u v (by simpa using hb), if_neg hcs]
        · have hne : (c :: cs) ≠ (d :: ds) := by
            intro he
            injection he with he1 _
            exact hce he1
          rw [if_neg hne]
          show (if c < d then true else if c = d then strLt (cs ++ u) (ds ++ v) else false) =
            (if c < d then true else if c = d then strLt cs ds else false)
          rw [if_neg hcd, if_neg hcd, if_neg hce, if_neg hce]

/-- Below the 04d overflow the artifact names are lexically ordered like
their sequence indices. -/
theorem frameName_strLt (ext : List Char) (i j : ℕ) (hi : i < 10000) (hj : j < 10000)
    (hij : i < j) : strLt (frameName ext i) (frameName ext j) = true := by
  unfold frameName
  rw [List.append_assoc, List.append_assoc, strLt_append_same,
    fmt04_eq_fourDigits i hi, fmt04_eq_fourDigits j hj,
    strLt_append_eqlen (fourDigits i) (fourDigits j) ext ext rfl,
    if_neg (fun he => absurd (fourDigits_inj i j hi hj he) (by omega))]
  exact strLt_fourDigits i j hi hj hij

/-- Claim C8 counterexample: at frame set size 10001 the 04d field
overflows its fixed width: frame 9999 temporally precedes frame 10000, yet
the name frame_10000.npy sorts lexically strictly BEFORE frame_9999.npy,
refuting lexical order equals temporal order for every frame set size. -/
theorem c8_counterexample :
    9999 < 10000 ∧
    strLt (frameName ".npy".toList 10000) (frameName ".npy".toList 9999) = true := by
  constructor
  · decide
  · decide

/-- Claim C8 (amended): for EVERY frame set size N, extraction produces
exactly N artifacts, with sequence numbers exactly 0 to N minus 1 in
source order, contiguous and duplicate free, each keyed by the 04d
formatted index; and whenever N is at most 10000 — the range on which the
zero padded field keeps its fixed width of four — the lexical order of
artifact names additionally equals temporal order. -/
theorem c8_amended (n : ℕ) (ext : List Char) :
    (extractArtifacts n ext).length = n ∧
    (extractArtifacts n ext).map Prod.fst = List.range n ∧
    ((extractArtifacts n ext).map Prod.fst).Nodup ∧
    (∀ p ∈ extractArtifacts n ext, p.2 = frameName ext p.1) ∧
    (n ≤ 10000 → ∀ i j, i < j → j < n →
      strLt (frameName ext i) (frameName ext j) = true) := by
  have hmap : (extractArtifacts n ext).map Prod.fst = List.range n := by
    unfold extractArtifacts
    rw [List.map_map,
      show (Prod.fst ∘ fun i => (i, frameName ext i)) = fun i : ℕ => i from rfl]
    exact List.map_id' (List.range n)
  refine ⟨by simp [extractArtifacts], hmap,
    by rw [hmap]; exact List.nodup_range n, ?_, ?_⟩
  · intro p hp
    rcases List.mem_map.mp hp with ⟨i, _, rfl⟩
    rfl
  · intro h i j hij hjn
    exact frameName_strLt ext i j (by omega) (by omega) hij

/-- Witness for c8_amended at the concrete frame set size 3, exercising
the bounded lexical order leg at the index pair 1, 2. -/
theorem c8_amended_witness :
    strLt (frameName ".npy".toList 1) (frameName ".npy".toList 2) = true :=
  (c8_amended 3 ".npy".toList).2.2.2.2 (by decide) 1 2 (by decide) (by decide)

end FitsToMp4
